import Mathlib

/-!
# Verification of the wildlife-classifier notebook (tzcl/wildlife-classifier)

The repository is a single notebook (`src/classifier.ipynb`) that sequences
calls into the PytorchWildlife library: device selection, batch detection,
`pw_utils.save_detection_json`, `pw_utils.save_detection_images` and
`pw_utils.detection_folder_separation`.  The library functions themselves are
not part of the repository source, so they are modelled here from the
specification; the notebook cells (constants, call arguments, device
selection) are embedded directly from the notebook code.

Confidences and thresholds are embedded as rationals (`ℚ`); file systems are
embedded as explicit lists of path strings, and folder contents as lists of
file names with overwrite-on-copy semantics.
-/

set_option autoImplicit false

namespace WildlifeClassifier

/-- A single detection: bounding box, confidence score and class id
(spec section 3, `Detection`). -/
structure Detection where
  class_id : Nat
  confidence : ℚ
  box : List ℚ
deriving DecidableEq

/-- A per-image detection record (spec section 3, `DetectionRecord`):
an image identifier together with the detections found in that image. -/
structure DetRecord where
  image_path : String
  detections : List Detection
deriving DecidableEq

/-- Modelled from the spec: the Threshold Classifier
(`classify(record, threshold)`, spec section 4.1) used inside
`pw_utils.detection_folder_separation`, whose code is not in the repository.
Positive iff some detection has confidence ≥ threshold. -/
def classify (detections : List Detection) (threshold : ℚ) : Bool :=
  detections.any (fun d => decide (threshold ≤ d.confidence))

/-- Maximum confidence of a detection list (0 by convention on the empty
list, which the theorems guard against). -/
def maxConf : List Detection → ℚ
  | [] => 0
  | d :: ds => (ds.map (fun e => e.confidence)).foldl max d.confidence

/-- Contents of the two destination subdirectories created by the folder
separation (`destination_root/Animal` and `destination_root/No-animal`),
as lists of file names. -/
structure FolderState where
  animal : List String
  noAnimal : List String
deriving DecidableEq

/-- Result of one folder-separation run: final folder contents, count of
successfully copied files, per-item warnings, and the (source, destination)
path of every copy performed. -/
structure SepOutcome where
  state : FolderState
  count : Nat
  warnings : List String
  copies : List (String × String)
deriving DecidableEq

/-- Copy a file named `n` into a folder: overwrite if already present
(no membership change), append otherwise. -/
def putFile (l : List String) (n : String) : List String :=
  if n ∈ l then l else l ++ [n]

/-- Warning emitted for a record whose source file is absent. -/
def warnMsg (p : String) : String :=
  "Warning: " ++ p ++ " not found in source folder, skipped."

/-- Destination path of a copied file: `destination_root/Animal/<name>` for a
positive verdict, `destination_root/No-animal/<name>` otherwise. -/
def destPath (destRoot : String) (positive : Bool) (name : String) : String :=
  destRoot ++ "/" ++ (if positive then "Animal" else "No-animal") ++ "/" ++ name

/-- Modelled from the spec: processing of a single record by
`pw_utils.detection_folder_separation` (spec section 4.3), whose code is not
in the repository.  If the source file exists, the record is classified and
its file copied (not moved; the source list is left untouched) to the
corresponding subdirectory, incrementing the count; otherwise the record is
skipped with a warning. -/
def sepStep (sourceRoot destRoot : String) (t : ℚ) (src : List String)
    (acc : SepOutcome) (r : DetRecord) : SepOutcome :=
  if r.image_path ∈ src then
    let pos := classify r.detections t
    { state :=
        if pos then
          { animal := putFile acc.state.animal r.image_path
            noAnimal := acc.state.noAnimal }
        else
          { animal := acc.state.animal
            noAnimal := putFile acc.state.noAnimal r.image_path }
      count := acc.count + 1
      warnings := acc.warnings
      copies := acc.copies ++
        [(sourceRoot ++ "/" ++ r.image_path, destPath destRoot pos r.image_path)] }
  else
    { acc with warnings := acc.warnings ++ [warnMsg r.image_path] }

/-- Modelled from the spec: the record-processing loop of
`pw_utils.detection_folder_separation`, each record processed independently
and exactly once, in order. -/
def runSep (sourceRoot destRoot : String) (t : ℚ) (src : List String) :
    SepOutcome → List DetRecord → SepOutcome
  | acc, [] => acc
  | acc, r :: rs => runSep sourceRoot destRoot t src (sepStep sourceRoot destRoot t src acc r) rs

/-- Fresh outcome over an initial folder state. -/
def initOutcome (st : FolderState) : SepOutcome :=
  { state := st, count := 0, warnings := [], copies := [] }

/-- A parsed JSON artifact: either malformed at top level, or a list of
detection records. -/
inductive JsonDoc where
  | malformed (msg : String)
  | wellFormed (records : List DetRecord)

/-- Modelled from the spec: `pw_utils.detection_folder_separation`
(spec section 4.3), whose code is not in the repository.  A malformed
top-level JSON document is fatal (the whole operation aborts with an error);
a well-formed one is processed record by record over the source file list
`src` and the initial destination folder state `st`. -/
def detection_folder_separation (doc : JsonDoc) (sourceRoot destRoot : String)
    (src : List String) (st : FolderState) (t : ℚ) : Except String SepOutcome :=
  match doc with
  | .malformed msg => .error msg
  | .wellFormed rs => .ok (runSep sourceRoot destRoot t src (initOutcome st) rs)

/-- `os.makedirs(path, exist_ok=ok)` over an explicit list of existing
directories: fails with `FileExistsError` on an existing directory only when
`exist_ok` is false (notebook cell 6 passes `exist_ok=True`). -/
def makedirs (existing : List String) (d : String) (exist_ok : Bool) :
    Except String (List String) :=
  if d ∈ existing then
    if exist_ok then .ok existing else .error "FileExistsError"
  else .ok (existing ++ [d])

/-- Scenario record from the spec: `{"img1.jpg": [{"confidence":0.5}]}`. -/
def img1Record : DetRecord := ⟨"img1.jpg", [⟨0, 1/2, []⟩]⟩

/-- Scenario record from the spec: `{"img2.jpg": [{"confidence":0.1}]}`. -/
def img2Record : DetRecord := ⟨"img2.jpg", [⟨0, 1/10, []⟩]⟩

/-- Scenario record from the spec: `{"img3.jpg": []}`. -/
def img3Record : DetRecord := ⟨"img3.jpg", []⟩

/-- The three spec scenarios run at threshold 0.2 over source root `s` and
destination root `d`, with all three source files present. -/
def scenarioRun : SepOutcome :=
  runSep "s" "d" (1/5) ["img1.jpg", "img2.jpg", "img3.jpg"]
    (initOutcome ⟨[], []⟩) [img1Record, img2Record, img3Record]

/-- Strip a leading path portion from an image path (used by
`save_detection_json` for portability): if `s` starts with `pfx`, drop it,
otherwise leave `s` unchanged. -/
def stripLead (pfx s : String) : String :=
  if pfx.data.isPrefixOf s.data then s.drop pfx.length else s

/-- A detection is kept in the JSON artifact iff its class id is not in the
exclusion list. -/
def keepDetection (excl : List Nat) (d : Detection) : Bool :=
  !(excl.contains d.class_id)

/-- The persisted JSON artifact (spec section 6): per-image detection lists
plus a categories mapping from class id to label. -/
structure JsonArtifact where
  images : List (String × List Detection)
  categories : List (Nat × String)
deriving DecidableEq

/-- Modelled from the spec: `pw_utils.save_detection_json`
(spec section 4.2 and section 6), whose code is not in the repository.
Writes, per image, its detections, omitting detections whose class id is in
`exclude_category_ids` and stripping `exclude_file_path` from image paths,
plus the `categories` mapping. -/
def save_detection_json (records : List DetRecord) (cats : List (Nat × String))
    (exclude_category_ids : List Nat) (exclude_file_path : String) :
    JsonArtifact :=
  { images := records.map (fun r =>
      (stripLead exclude_file_path r.image_path,
       r.detections.filter (keepDetection exclude_category_ids)))
    categories := cats }

/-! ## Notebook constants and call arguments (from `src/classifier.ipynb`) -/

/-- Notebook cell 4: the input directory of original images. -/
def tgt_folder_path : String := "./imgs"

/-- Notebook cell 4: the directory for the JSON artifact and the annotated
images. -/
def output_path : String := "output"

/-- Notebook cell 4: the destination root for Animal / No-animal. -/
def classified_path : String := "classified"

/-- Notebook cell 4: the confidence threshold. -/
def threshold : ℚ := 0.2

/-- Notebook cell 6: `os.path.join(output_path, "detection_results.json")`. -/
def json_file : String := output_path ++ "/" ++ "detection_results.json"

/-- The arguments the notebook (cell 6) passes to the three library calls:
`save_detection_json`, `save_detection_images` and
`detection_folder_separation`. -/
structure NotebookCalls where
  json_save_path : String
  json_exclude_category_ids : List Nat
  json_exclude_file_path : String
  images_output_path : String
  sep_json_path : String
  sep_source_root : String
  sep_destination_root : String
  sep_threshold : ℚ
deriving DecidableEq

/-- Notebook cell 6, embedded argument by argument:
`save_detection_json(results, json_file, categories=..., exclude_category_ids=[],
exclude_file_path=tgt_folder_path)`, `save_detection_images(results, output_path)`,
`detection_folder_separation(json_file, output_path, classified_path, threshold)`. -/
def notebookCalls : NotebookCalls :=
  { json_save_path := json_file
    json_exclude_category_ids := []
    json_exclude_file_path := tgt_folder_path
    images_output_path := output_path
    sep_json_path := json_file
    sep_source_root := output_path
    sep_destination_root := classified_path
    sep_threshold := threshold }

/-- Notebook cell 3: `DEVICE = "cuda" if torch.cuda.is_available() else "cpu"`. -/
def selectDevice (cuda_available : Bool) : String :=
  if cuda_available then "cuda" else "cpu"

/-- Notebook cell 3: `torch.cuda.set_device(0)` runs exactly when
`DEVICE == "cuda"`. -/
def cudaSetDevice0 (cuda_available : Bool) : Bool :=
  selectDevice cuda_available == "cuda"

/-- The notebook pipeline as a function of CUDA availability: the chosen
device, whether CUDA device 0 was selected, and the downstream call
arguments (which do not mention the device). -/
def notebookPipeline (cuda_available : Bool) : String × Bool × NotebookCalls :=
  (selectDevice cuda_available, cudaSetDevice0 cuda_available, notebookCalls)

/-! ## Theorems -/

theorem le_foldl_max_iff (t a : ℚ) (l : List ℚ) :
    t ≤ l.foldl max a ↔ t ≤ a ∨ ∃ x ∈ l, t ≤ x := by
  induction l generalizing a with
  | nil => simp
  | cons x xs ih =>
      simp only [List.foldl_cons, ih, le_max_iff, List.mem_cons]
      constructor
      · rintro ((h | h) | ⟨y, hy, h⟩)
        · exact Or.inl h
        · exact Or.inr ⟨x, Or.inl rfl, h⟩
        · exact Or.inr ⟨y, Or.inr hy, h⟩
      · rintro (h | ⟨y, rfl | hy, h⟩)
        · exact Or.inl (Or.inl h)
        · exact Or.inl (Or.inr h)
        · exact Or.inr ⟨y, hy, h⟩

theorem classify_eq_true_iff (dets : List Detection) (t : ℚ) :
    classify dets t = true ↔ ∃ d ∈ dets, t ≤ d.confidence := by
  simp [classify]

theorem classify_iff_le_maxConf (dets : List Detection) (t : ℚ)
    (h : dets ≠ []) : classify dets t = true ↔ t ≤ maxConf dets := by
  cases dets with
  | nil => exact absurd rfl h
  | cons d ds =>
      rw [classify_eq_true_iff]
      simp only [maxConf, le_foldl_max_iff, List.mem_map, List.mem_cons]
      constructor
      · rintro ⟨e, rfl | he, hle⟩
        · exact Or.inl hle
        · exact Or.inr ⟨e.confidence, ⟨e, he, rfl⟩, hle⟩
      · rintro (h0 | ⟨x, ⟨e, he, rfl⟩, hle⟩)
        · exact ⟨d, Or.inl rfl, h0⟩
        · exact ⟨e, Or.inr he, hle⟩

/-- **C1.** For every detection record and every threshold t in [0,1], the
threshold classification is true iff some detection in the record has
confidence ≥ t, equivalently iff the maximum confidence is ≥ t; on an empty
detections list it is always false. -/
theorem threshold_classifier_spec (dets : List Detection) (t : ℚ)
    (h0 : 0 ≤ t) (h1 : t ≤ 1) (hne : dets ≠ []) :
    classify [] t = false ∧
    (classify dets t = true ↔ ∃ d ∈ dets, t ≤ d.confidence) ∧
    (classify dets t = true ↔ t ≤ maxConf dets) := by
  exact ⟨rfl, classify_eq_true_iff dets t, classify_iff_le_maxConf dets t hne⟩

/-- Witness for C1 at a concrete record and threshold 1/5. -/
theorem threshold_classifier_spec_witness :
    classify [] (1/5 : ℚ) = false ∧
    (classify [⟨0, 1/2, []⟩] (1/5 : ℚ) = true ↔
      ∃ d ∈ [(⟨0, 1/2, []⟩ : Detection)], (1/5 : ℚ) ≤ d.confidence) ∧
    (classify [⟨0, 1/2, []⟩] (1/5 : ℚ) = true ↔
      (1/5 : ℚ) ≤ maxConf [⟨0, 1/2, []⟩]) :=
  threshold_classifier_spec [⟨0, 1/2, []⟩] (1/5) (by norm_num) (by norm_num)
    (by simp)

theorem putFile_mem (l : List String) (n x : String) :
    x ∈ putFile l n ↔ x ∈ l ∨ x = n := by
  unfold putFile
  split
  · rename_i h
    constructor
    · exact Or.inl
    · rintro (hx | rfl)
      · exact hx
      · exact h
  · simp

theorem putFile_of_mem (l : List String) (n : String) (h : n ∈ l) :
    putFile l n = l := by
  simp [putFile, h]

theorem putFile_nodup (l : List String) (n : String) (h : l.Nodup) :
    (putFile l n).Nodup := by
  unfold putFile
  split
  · exact h
  · rename_i hn
    simpa [List.nodup_append] using ⟨h, hn⟩

theorem runSep_count (sourceRoot destRoot : String) (t : ℚ) (src : List String)
    (acc : SepOutcome) (rs : List DetRecord) :
    (runSep sourceRoot destRoot t src acc rs).count =
      acc.count + (rs.filter (fun r => decide (r.image_path ∈ src))).length := by
  induction rs generalizing acc with
  | nil => simp [runSep]
  | cons r rs ih =>
      rw [runSep, ih]
      by_cases h : r.image_path ∈ src
      · simp [sepStep, h, Nat.add_assoc, Nat.add_comm 1]
      · simp [sepStep, h]

theorem runSep_animal_mem (sourceRoot destRoot : String) (t : ℚ)
    (src : List String) (acc : SepOutcome) (rs : List DetRecord) (x : String) :
    x ∈ (runSep sourceRoot destRoot t src acc rs).state.animal ↔
      x ∈ acc.state.animal ∨
        ∃ r ∈ rs, r.image_path = x ∧ r.image_path ∈ src ∧
          classify r.detections t = true := by
  induction rs generalizing acc with
  | nil => simp [runSep]
  | cons r rs ih =>
      rw [runSep, ih]
      by_cases h : r.image_path ∈ src
      · by_cases hc : classify r.detections t = true
        · simp only [sepStep, h, if_pos, hc, if_true, putFile_mem, List.mem_cons]
          constructor
          · rintro ((hx | rfl) | ⟨e, he, hx⟩)
            · exact Or.inl hx
            · exact Or.inr ⟨r, Or.inl rfl, rfl, h, hc⟩
            · exact Or.inr ⟨e, Or.inr he, hx⟩
          · rintro (hx | ⟨e, rfl | he, hx⟩)
            · exact Or.inl (Or.inl hx)
            · exact Or.inl (Or.inr hx.1.symm)
            · exact Or.inr ⟨e, he, hx⟩
        · simp only [sepStep, h, if_pos, hc, if_false, Bool.false_eq_true, List.mem_cons]
          constructor
          · rintro (hx | ⟨e, he, hx⟩)
            · exact Or.inl hx
            · exact Or.inr ⟨e, Or.inr he, hx⟩
          · rintro (hx | ⟨e, rfl | he, hx⟩)
            · exact Or.inl hx
            · exact absurd hx.2.2 hc
            · exact Or.inr ⟨e, he, hx⟩
      · simp only [sepStep, h, if_neg, if_false, List.mem_cons]
        constructor
        · rintro (hx | ⟨e, he, hx⟩)
          · exact Or.inl hx
          · exact Or.inr ⟨e, Or.inr he, hx⟩
        · rintro (hx | ⟨e, rfl | he, hx⟩)
          · exact Or.inl hx
          · exact absurd hx.2.1 h
          · exact Or.inr ⟨e, he, hx⟩

theorem runSep_noAnimal_mem (sourceRoot destRoot : String) (t : ℚ)
    (src : List String) (acc : SepOutcome) (rs : List DetRecord) (x : String) :
    x ∈ (runSep sourceRoot destRoot t src acc rs).state.noAnimal ↔
      x ∈ acc.state.noAnimal ∨
        ∃ r ∈ rs, r.image_path = x ∧ r.image_path ∈ src ∧
          classify r.detections t = false := by
  induction rs generalizing acc with
  | nil => simp [runSep]
  | cons r rs ih =>
      rw [runSep, ih]
      by_cases h : r.image_path ∈ src
      · by_cases hc : classify r.detections t = true
        · simp only [sepStep, h, if_pos, hc, if_true, List.mem_cons]
          constructor
          · rintro (hx | ⟨e, he, hx⟩)
            · exact Or.inl hx
            · exact Or.inr ⟨e, Or.inr he, hx⟩
          · rintro (hx | ⟨e, rfl | he, hx⟩)
            · exact Or.inl hx
            · exact absurd hc (by simp [hx.2.2])
            · exact Or.inr ⟨e, he, hx⟩
        · simp only [sepStep, h, if_pos, hc, if_false, Bool.false_eq_true, putFile_mem,
            List.mem_cons]
          constructor
          · rintro ((hx | rfl) | ⟨e, he, hx⟩)
            · exact Or.inl hx
            · exact Or.inr ⟨r, Or.inl rfl, rfl, h, Bool.eq_false_iff.2 hc⟩
            · exact Or.inr ⟨e, Or.inr he, hx⟩
          · rintro (hx | ⟨e, rfl | he, hx⟩)
            · exact Or.inl (Or.inl hx)
            · exact Or.inl (Or.inr hx.1.symm)
            · exact Or.inr ⟨e, he, hx⟩
      · simp only [sepStep, h, if_neg, if_false, List.mem_cons]
        constructor
        · rintro (hx | ⟨e, he, hx⟩)
          · exact Or.inl hx
          · exact Or.inr ⟨e, Or.inr he, hx⟩
        · rintro (hx | ⟨e, rfl | he, hx⟩)
          · exact Or.inl hx
          · exact absurd hx.2.1 h
          · exact Or.inr ⟨e, he, hx⟩

theorem runSep_warnings_mem (sourceRoot destRoot : String) (t : ℚ)
    (src : List String) (acc : SepOutcome) (rs : List DetRecord) (w : String) :
    w ∈ (runSep sourceRoot destRoot t src acc rs).warnings ↔
      w ∈ acc.warnings ∨ ∃ r ∈ rs, r.image_path ∉ src ∧ w = warnMsg r.image_path := by
  induction rs generalizing acc with
  | nil => simp [runSep]
  | cons r rs ih =>
      rw [runSep, ih]
      by_cases h : r.image_path ∈ src
      · simp only [sepStep, h, if_pos, List.mem_cons]
        constructor
        · rintro (hw | ⟨e, he, hw⟩)
          · exact Or.inl hw
          · exact Or.inr ⟨e, Or.inr he, hw⟩
        · rintro (hw | ⟨e, rfl | he, hw⟩)
          · exact Or.inl hw
          · exact absurd h hw.1
          · exact Or.inr ⟨e, he, hw⟩
      · simp only [sepStep, h, if_neg, if_false, List.mem_cons, List.mem_append,
          List.mem_singleton, List.not_mem_nil, or_false]
        constructor
        · rintro ((hw | rfl) | ⟨e, he, hw⟩)
          · exact Or.inl hw
          · exact Or.inr ⟨r, Or.inl rfl, h, rfl⟩
          · exact Or.inr ⟨e, Or.inr he, hw⟩
        · rintro (hw | ⟨e, rfl | he, hw⟩)
          · exact Or.inl (Or.inl hw)
          · exact Or.inl (Or.inr hw.2)
          · exact Or.inr ⟨e, he, hw⟩

theorem runSep_copies_mem (sourceRoot destRoot : String) (t : ℚ)
    (src : List String) (acc : SepOutcome) (rs : List DetRecord)
    (c : String × String) :
    c ∈ (runSep sourceRoot destRoot t src acc rs).copies ↔
      c ∈ acc.copies ∨ ∃ r ∈ rs, r.image_path ∈ src ∧
        c = (sourceRoot ++ "/" ++ r.image_path,
             destPath destRoot (classify r.detections t) r.image_path) := by
  induction rs generalizing acc with
  | nil => simp [runSep]
  | cons r rs ih =>
      rw [runSep, ih]
      by_cases h : r.image_path ∈ src
      · simp only [sepStep, h, if_pos, List.mem_cons, List.mem_append,
          List.mem_singleton, List.not_mem_nil, or_false]
        constructor
        · rintro ((hc | rfl) | ⟨e, he, hc⟩)
          · exact Or.inl hc
          · exact Or.inr ⟨r, Or.inl rfl, h, rfl⟩
          · exact Or.inr ⟨e, Or.inr he, hc⟩
        · rintro (hc | ⟨e, rfl | he, hc⟩)
          · exact Or.inl (Or.inl hc)
          · exact Or.inl (Or.inr hc.2)
          · exact Or.inr ⟨e, he, hc⟩
      · simp only [sepStep, h, if_neg, if_false, List.mem_cons]
        constructor
        · rintro (hc | ⟨e, he, hc⟩)
          · exact Or.inl hc
          · exact Or.inr ⟨e, Or.inr he, hc⟩
        · rintro (hc | ⟨e, rfl | he, hc⟩)
          · exact Or.inl hc
          · exact absurd hc.1 h
          · exact Or.inr ⟨e, he, hc⟩

theorem runSep_copies_length (sourceRoot destRoot : String) (t : ℚ)
    (src : List String) (acc : SepOutcome) (rs : List DetRecord) :
    (runSep sourceRoot destRoot t src acc rs).copies.length =
      acc.copies.length +
        (rs.filter (fun r => decide (r.image_path ∈ src))).length := by
  induction rs generalizing acc with
  | nil => simp [runSep]
  | cons r rs ih =>
      rw [runSep, ih]
      by_cases h : r.image_path ∈ src
      · simp [sepStep, h, Nat.add_assoc, Nat.add_comm 1]
      · simp [sepStep, h]

theorem runSep_animal_nodup (sourceRoot destRoot : String) (t : ℚ)
    (src : List String) (acc : SepOutcome) (rs : List DetRecord)
    (h : acc.state.animal.Nodup) :
    (runSep sourceRoot destRoot t src acc rs).state.animal.Nodup := by
  induction rs generalizing acc with
  | nil => exact h
  | cons r rs ih =>
      rw [runSep]
      apply ih
      by_cases hp : r.image_path ∈ src
      · by_cases hc : classify r.detections t = true
        · simpa [sepStep, hp, hc] using putFile_nodup _ _ h
        · simpa [sepStep, hp, hc] using h
      · simpa [sepStep, hp] using h

theorem runSep_noAnimal_nodup (sourceRoot destRoot : String) (t : ℚ)
    (src : List String) (acc : SepOutcome) (rs : List DetRecord)
    (h : acc.state.noAnimal.Nodup) :
    (runSep sourceRoot destRoot t src acc rs).state.noAnimal.Nodup := by
  induction rs generalizing acc with
  | nil => exact h
  | cons r rs ih =>
      rw [runSep]
      apply ih
      by_cases hp : r.image_path ∈ src
      · by_cases hc : classify r.detections t = true
        · simpa [sepStep, hp, hc] using h
        · simpa [sepStep, hp, hc] using putFile_nodup _ _ h
      · simpa [sepStep, hp] using h

/-- **C2.** For every image referenced in the JSON artifact whose source file
exists, the folder separation places a copy of that image in exactly one of
the two destination subdirectories Animal or No-animal, never both and never
neither (starting from empty destination folders, with distinct image
identifiers as guaranteed by the data-model invariant). -/
theorem folder_separation_partition (sourceRoot destRoot : String) (t : ℚ)
    (src : List String) (rs : List DetRecord)
    (hnd : (rs.map (fun r => r.image_path)).Nodup)
    (r : DetRecord) (hr : r ∈ rs) (hex : r.image_path ∈ src) :
    Xor'
      (r.image_path ∈
        (runSep sourceRoot destRoot t src (initOutcome ⟨[], []⟩) rs).state.animal)
      (r.image_path ∈
        (runSep sourceRoot destRoot t src (initOutcome ⟨[], []⟩) rs).state.noAnimal) := by
  have hinj := List.inj_on_of_nodup_map hnd
  have ha : (r.image_path ∈
      (runSep sourceRoot destRoot t src (initOutcome ⟨[], []⟩) rs).state.animal) ↔
      classify r.detections t = true := by
    rw [runSep_animal_mem]
    constructor
    · rintro (hmem | ⟨e, he, hpath, _, hc⟩)
      · simp [initOutcome] at hmem
      · rwa [hinj he hr hpath] at hc
    · intro hc
      exact Or.inr ⟨r, hr, rfl, hex, hc⟩
  have hn : (r.image_path ∈
      (runSep sourceRoot destRoot t src (initOutcome ⟨[], []⟩) rs).state.noAnimal) ↔
      classify r.detections t = false := by
    rw [runSep_noAnimal_mem]
    constructor
    · rintro (hmem | ⟨e, he, hpath, _, hc⟩)
      · simp [initOutcome] at hmem
      · rwa [hinj he hr hpath] at hc
    · intro hc
      exact Or.inr ⟨r, hr, rfl, hex, hc⟩
  by_cases hc : classify r.detections t = true
  · exact Or.inl ⟨ha.2 hc, by simp [hn, hc]⟩
  · exact Or.inr ⟨by simp [hn, Bool.eq_false_iff.2 hc], by simp [ha, hc]⟩

/-- Witness for C2: one record with a confident detection, present in the
source folder. -/
theorem folder_separation_partition_witness :
    Xor'
      ("img1.jpg" ∈
        (runSep "src" "dst" (1/5 : ℚ) ["img1.jpg"] (initOutcome ⟨[], []⟩)
          [⟨"img1.jpg", [⟨0, 1/2, []⟩]⟩]).state.animal)
      ("img1.jpg" ∈
        (runSep "src" "dst" (1/5 : ℚ) ["img1.jpg"] (initOutcome ⟨[], []⟩)
          [⟨"img1.jpg", [⟨0, 1/2, []⟩]⟩]).state.noAnimal) :=
  folder_separation_partition "src" "dst" (1/5) ["img1.jpg"]
    [⟨"img1.jpg", [⟨0, 1/2, []⟩]⟩] (by simp)
    ⟨"img1.jpg", [⟨0, 1/2, []⟩]⟩ (by simp) (by simp)

theorem destPath_true (destRoot name : String) :
    destPath destRoot true name = destRoot ++ "/Animal/" ++ name := by
  have h : ("/Animal/" : String) = "/" ++ "Animal" ++ "/" := rfl
  rw [h]
  simp [destPath, String.append_assoc]

theorem destPath_false (destRoot name : String) :
    destPath destRoot false name = destRoot ++ "/No-animal/" ++ name := by
  have h : ("/No-animal/" : String) = "/" ++ "No-animal" ++ "/" := rfl
  rw [h]
  simp [destPath, String.append_assoc]

theorem classify_img1_pos : classify img1Record.detections (1/5 : ℚ) = true := by
  simp only [classify, img1Record, List.any_cons, List.any_nil, Bool.or_false,
    decide_eq_true_eq]
  norm_num

theorem classify_img2_neg : classify img2Record.detections (1/5 : ℚ) = false := by
  simp only [classify, img2Record, List.any_cons, List.any_nil, Bool.or_false,
    decide_eq_false_iff_not]
  norm_num

theorem scenario_copy_img1 :
    ("s/img1.jpg", "d/Animal/img1.jpg") ∈ scenarioRun.copies := by
  rw [scenarioRun]
  refine (runSep_copies_mem _ _ _ _ _ _ _).2
    (Or.inr ⟨img1Record, by simp, by simp [img1Record], ?_⟩)
  rw [classify_img1_pos]
  rfl

theorem scenario_copy_img2 :
    ("s/img2.jpg", "d/No-animal/img2.jpg") ∈ scenarioRun.copies := by
  rw [scenarioRun]
  refine (runSep_copies_mem _ _ _ _ _ _ _).2
    (Or.inr ⟨img2Record, by simp, by simp [img2Record], ?_⟩)
  rw [classify_img2_neg]
  rfl

theorem scenario_copy_img3 :
    ("s/img3.jpg", "d/No-animal/img3.jpg") ∈ scenarioRun.copies := by
  rw [scenarioRun]
  exact (runSep_copies_mem _ _ _ _ _ _ _).2
    (Or.inr ⟨img3Record, by simp, by simp [img3Record], rfl⟩)

/-- **C3.** The folder separation copies each present record's source file to
`destination_root/Animal/<name>` when the verdict is positive and to
`destination_root/No-animal/<name>` otherwise; with threshold 0.2 a
confidence-0.5 record goes to Animal, a confidence-0.1 record goes to
No-animal, and a record with no detections goes to No-animal at any
threshold. -/
theorem folder_separation_copy_routing (sourceRoot destRoot name : String)
    (t : ℚ) (src : List String) (st : FolderState) (rs : List DetRecord)
    (r : DetRecord) (hr : r ∈ rs) (hex : r.image_path ∈ src) :
    destPath destRoot true name = destRoot ++ "/Animal/" ++ name ∧
    destPath destRoot false name = destRoot ++ "/No-animal/" ++ name ∧
    (sourceRoot ++ "/" ++ r.image_path,
      destPath destRoot (classify r.detections t) r.image_path) ∈
      (runSep sourceRoot destRoot t src (initOutcome st) rs).copies ∧
    classify img1Record.detections (1/5) = true ∧
    classify img2Record.detections (1/5) = false ∧
    classify img3Record.detections t = false ∧
    ("s/img1.jpg", "d/Animal/img1.jpg") ∈ scenarioRun.copies ∧
    ("s/img2.jpg", "d/No-animal/img2.jpg") ∈ scenarioRun.copies ∧
    ("s/img3.jpg", "d/No-animal/img3.jpg") ∈ scenarioRun.copies := by
  refine ⟨destPath_true destRoot name, destPath_false destRoot name, ?_,
    classify_img1_pos, classify_img2_neg, rfl,
    scenario_copy_img1, scenario_copy_img2, scenario_copy_img3⟩
  exact (runSep_copies_mem sourceRoot destRoot t src (initOutcome st) rs _).2
    (Or.inr ⟨r, hr, hex, rfl⟩)

/-- Witness for C3 at a concrete record, source list and folder state. -/
theorem folder_separation_copy_routing_witness :
    destPath "d" true "n" = "d" ++ "/Animal/" ++ "n" ∧
    destPath "d" false "n" = "d" ++ "/No-animal/" ++ "n" ∧
    ("s" ++ "/" ++ img1Record.image_path,
      destPath "d" (classify img1Record.detections (1/5)) img1Record.image_path) ∈
      (runSep "s" "d" (1/5) ["img1.jpg"] (initOutcome ⟨[], []⟩) [img1Record]).copies ∧
    classify img1Record.detections (1/5) = true ∧
    classify img2Record.detections (1/5) = false ∧
    classify img3Record.detections (1/5) = false ∧
    ("s/img1.jpg", "d/Animal/img1.jpg") ∈ scenarioRun.copies ∧
    ("s/img2.jpg", "d/No-animal/img2.jpg") ∈ scenarioRun.copies ∧
    ("s/img3.jpg", "d/No-animal/img3.jpg") ∈ scenarioRun.copies :=
  folder_separation_copy_routing "s" "d" "n" (1/5) ["img1.jpg"] ⟨[], []⟩
    [img1Record] img1Record (by simp) (by simp [img1Record])

/-- **C4.** On every well-formed JSON artifact the folder separation succeeds
and returns the count of successfully copied files: the number of records
whose source file exists, which is exactly the number of copies performed. -/
theorem folder_separation_returns_count (sourceRoot destRoot : String) (t : ℚ)
    (src : List String) (st : FolderState) (rs : List DetRecord) :
    detection_folder_separation (.wellFormed rs) sourceRoot destRoot src st t =
      .ok (runSep sourceRoot destRoot t src (initOutcome st) rs) ∧
    (runSep sourceRoot destRoot t src (initOutcome st) rs).count =
      (rs.filter (fun r => decide (r.image_path ∈ src))).length ∧
    (runSep sourceRoot destRoot t src (initOutcome st) rs).count =
      (runSep sourceRoot destRoot t src (initOutcome st) rs).copies.length := by
  refine ⟨rfl, ?_, ?_⟩
  · simpa [initOutcome] using runSep_count sourceRoot destRoot t src (initOutcome st) rs
  · rw [runSep_count, runSep_copies_length]
    simp [initOutcome]

/-- **C5.** A record whose source file is absent is skipped with a per-item
warning and the operation still completes, returning a count that excludes
that record; a malformed top-level JSON document aborts the whole operation
with an error surfaced to the caller. -/
theorem folder_separation_error_semantics (msg sourceRoot destRoot : String)
    (t : ℚ) (src : List String) (st : FolderState) (rs : List DetRecord)
    (r : DetRecord) (hr : r ∈ rs) (hmiss : r.image_path ∉ src) :
    detection_folder_separation (.malformed msg) sourceRoot destRoot src st t =
      .error msg ∧
    detection_folder_separation (.wellFormed rs) sourceRoot destRoot src st t =
      .ok (runSep sourceRoot destRoot t src (initOutcome st) rs) ∧
    warnMsg r.image_path ∈
      (runSep sourceRoot destRoot t src (initOutcome st) rs).warnings ∧
    (runSep sourceRoot destRoot t src (initOutcome st) rs).count =
      (rs.filter (fun x => decide (x.image_path ∈ src))).length ∧
    r ∉ rs.filter (fun x => decide (x.image_path ∈ src)) := by
  refine ⟨rfl, rfl, ?_, ?_, ?_⟩
  · exact (runSep_warnings_mem sourceRoot destRoot t src (initOutcome st) rs _).2
      (Or.inr ⟨r, hr, hmiss, rfl⟩)
  · simpa [initOutcome] using runSep_count sourceRoot destRoot t src (initOutcome st) rs
  · simp [List.mem_filter, hmiss]

/-- Witness for C5: a two-record artifact where `img4.jpg` is referenced but
absent from the source folder. -/
theorem folder_separation_error_semantics_witness :
    detection_folder_separation (.malformed "bad json") "s" "d" ["img1.jpg"]
      ⟨[], []⟩ (1/5) = .error "bad json" ∧
    detection_folder_separation (.wellFormed [img1Record, ⟨"img4.jpg", []⟩])
      "s" "d" ["img1.jpg"] ⟨[], []⟩ (1/5) =
      .ok (runSep "s" "d" (1/5) ["img1.jpg"] (initOutcome ⟨[], []⟩)
        [img1Record, ⟨"img4.jpg", []⟩]) ∧
    warnMsg "img4.jpg" ∈
      (runSep "s" "d" (1/5) ["img1.jpg"] (initOutcome ⟨[], []⟩)
        [img1Record, ⟨"img4.jpg", []⟩]).warnings ∧
    (runSep "s" "d" (1/5) ["img1.jpg"] (initOutcome ⟨[], []⟩)
      [img1Record, ⟨"img4.jpg", []⟩]).count =
      ([img1Record, ⟨"img4.jpg", []⟩].filter
        (fun x => decide (x.image_path ∈ ["img1.jpg"]))).length ∧
    (⟨"img4.jpg", []⟩ : DetRecord) ∉
      [img1Record, ⟨"img4.jpg", []⟩].filter
        (fun x => decide (x.image_path ∈ ["img1.jpg"])) :=
  folder_separation_error_semantics "bad json" "s" "d" (1/5) ["img1.jpg"]
    ⟨[], []⟩ [img1Record, ⟨"img4.jpg", []⟩] ⟨"img4.jpg", []⟩ (by simp)
    (by simp)

theorem makedirs_exist_ok (dirs : List String) (d : String) :
    ∃ ds, makedirs dirs d true = .ok ds ∧ makedirs ds d true = .ok ds := by
  by_cases h : d ∈ dirs
  · exact ⟨dirs, by simp [makedirs, h], by simp [makedirs, h]⟩
  · exact ⟨dirs ++ [d], by simp [makedirs, h], by simp [makedirs]⟩

/-- **C6.** Running the folder separation twice on the same inputs returns
the same file count both times and leaves the same membership of the Animal
and No-animal folders (copies overwrite, so no duplicates arise), and
creating the destination subdirectories when they already exist does not
fail. -/
theorem separate_idempotent (sourceRoot destRoot : String) (t : ℚ)
    (src : List String) (st : FolderState) (rs : List DetRecord) (x : String)
    (dirs : List String) (d : String)
    (h1 : st.animal.Nodup) (h2 : st.noAnimal.Nodup) :
    (runSep sourceRoot destRoot t src
        (initOutcome (runSep sourceRoot destRoot t src (initOutcome st) rs).state)
        rs).count =
      (runSep sourceRoot destRoot t src (initOutcome st) rs).count ∧
    ((x ∈ (runSep sourceRoot destRoot t src
        (initOutcome (runSep sourceRoot destRoot t src (initOutcome st) rs).state)
        rs).state.animal) ↔
      x ∈ (runSep sourceRoot destRoot t src (initOutcome st) rs).state.animal) ∧
    ((x ∈ (runSep sourceRoot destRoot t src
        (initOutcome (runSep sourceRoot destRoot t src (initOutcome st) rs).state)
        rs).state.noAnimal) ↔
      x ∈ (runSep sourceRoot destRoot t src (initOutcome st) rs).state.noAnimal) ∧
    (runSep sourceRoot destRoot t src (initOutcome st) rs).state.animal.Nodup ∧
    (runSep sourceRoot destRoot t src (initOutcome st) rs).state.noAnimal.Nodup ∧
    ∃ ds, makedirs dirs d true = .ok ds ∧ makedirs ds d true = .ok ds := by
  refine ⟨?_, ?_, ?_, ?_, ?_, makedirs_exist_ok dirs d⟩
  · rw [runSep_count, runSep_count]
    simp [initOutcome]
  · simp only [runSep_animal_mem, initOutcome]
    tauto
  · simp only [runSep_noAnimal_mem, initOutcome]
    tauto
  · exact runSep_animal_nodup sourceRoot destRoot t src (initOutcome st) rs h1
  · exact runSep_noAnimal_nodup sourceRoot destRoot t src (initOutcome st) rs h2

/-- Witness for C6 at a concrete record list, source list and folder state. -/
theorem separate_idempotent_witness :
    (runSep "s" "d" (1/5 : ℚ) ["img1.jpg"]
        (initOutcome (runSep "s" "d" (1/5 : ℚ) ["img1.jpg"]
          (initOutcome ⟨[], []⟩) [img1Record]).state)
        [img1Record]).count =
      (runSep "s" "d" (1/5 : ℚ) ["img1.jpg"]
        (initOutcome ⟨[], []⟩) [img1Record]).count ∧
    (("img1.jpg" ∈ (runSep "s" "d" (1/5 : ℚ) ["img1.jpg"]
        (initOutcome (runSep "s" "d" (1/5 : ℚ) ["img1.jpg"]
          (initOutcome ⟨[], []⟩) [img1Record]).state)
        [img1Record]).state.animal) ↔
      "img1.jpg" ∈ (runSep "s" "d" (1/5 : ℚ) ["img1.jpg"]
        (initOutcome ⟨[], []⟩) [img1Record]).state.animal) ∧
    (("img1.jpg" ∈ (runSep "s" "d" (1/5 : ℚ) ["img1.jpg"]
        (initOutcome (runSep "s" "d" (1/5 : ℚ) ["img1.jpg"]
          (initOutcome ⟨[], []⟩) [img1Record]).state)
        [img1Record]).state.noAnimal) ↔
      "img1.jpg" ∈ (runSep "s" "d" (1/5 : ℚ) ["img1.jpg"]
        (initOutcome ⟨[], []⟩) [img1Record]).state.noAnimal) ∧
    (runSep "s" "d" (1/5 : ℚ) ["img1.jpg"]
      (initOutcome ⟨[], []⟩) [img1Record]).state.animal.Nodup ∧
    (runSep "s" "d" (1/5 : ℚ) ["img1.jpg"]
      (initOutcome ⟨[], []⟩) [img1Record]).state.noAnimal.Nodup ∧
    ∃ ds, makedirs ["classified"] "classified" true = .ok ds ∧
      makedirs ds "classified" true = .ok ds :=
  separate_idempotent "s" "d" (1/5) ["img1.jpg"] ⟨[], []⟩ [img1Record]
    "img1.jpg" ["classified"] "classified" (by simp) (by simp)

theorem stripLead_append (pfx rest : String) :
    stripLead pfx (pfx ++ rest) = rest := by
  unfold stripLead
  have h : pfx.data.isPrefixOf (pfx ++ rest).data = true := by
    simp [String.data_append, List.isPrefixOf_iff_prefix, List.prefix_append]
  rw [if_pos h]
  apply String.ext
  simp only [String.data_drop, String.data_append]
  have hl : pfx.length = pfx.data.length := rfl
  rw [hl]
  exact List.drop_left _ _

/-- **C7.** The persist operation writes a JSON document mapping each image
identifier (with the given path portion stripped) to its detections, omitting
detections whose class id is in the exclusion list, plus the categories
mapping from class id to label. -/
theorem persist_json_spec (records : List DetRecord) (cats : List (Nat × String))
    (excl : List Nat) (pfx rest : String) (r : DetRecord) (hr : r ∈ records) :
    (save_detection_json records cats excl pfx).categories = cats ∧
    (save_detection_json records cats excl pfx).images =
      records.map (fun e => (stripLead pfx e.image_path,
        e.detections.filter (keepDetection excl))) ∧
    (stripLead pfx r.image_path, r.detections.filter (keepDetection excl)) ∈
      (save_detection_json records cats excl pfx).images ∧
    stripLead pfx (pfx ++ rest) = rest ∧
    (r.detections.filter (keepDetection excl)).all (keepDetection excl) = true := by
  refine ⟨rfl, rfl, ?_, stripLead_append pfx rest, ?_⟩
  · exact List.mem_map.2 ⟨r, hr, rfl⟩
  · exact List.all_eq_true.2 (fun d hd => (List.mem_filter.1 hd).2)

/-- Witness for C7 at a concrete record list with an excluded class. -/
theorem persist_json_spec_witness :
    (save_detection_json [img1Record] [(0, "animal")] [1] "p").categories =
      [(0, "animal")] ∧
    (save_detection_json [img1Record] [(0, "animal")] [1] "p").images =
      [img1Record].map (fun e => (stripLead "p" e.image_path,
        e.detections.filter (keepDetection [1]))) ∧
    (stripLead "p" img1Record.image_path,
      img1Record.detections.filter (keepDetection [1])) ∈
      (save_detection_json [img1Record] [(0, "animal")] [1] "p").images ∧
    stripLead "p" ("p" ++ "q") = "q" ∧
    (img1Record.detections.filter (keepDetection [1])).all (keepDetection [1]) =
      true :=
  persist_json_spec [img1Record] [(0, "animal")] [1] "p" "q" img1Record
    (by simp)

/-- **C8.** The classification verdict is independent of detection class:
relabelling every detection's class id leaves the verdict unchanged, and with
an empty `exclude_category_ids` list (as the notebook passes) no detection is
filtered out of the persisted artifact. -/
theorem classification_class_independent (dets : List Detection) (t : ℚ)
    (f : Nat → Nat) (records : List DetRecord) (cats : List (Nat × String))
    (pfx : String) :
    classify (dets.map (fun d => ⟨f d.class_id, d.confidence, d.box⟩)) t =
      classify dets t ∧
    dets.filter (keepDetection []) = dets ∧
    notebookCalls.json_exclude_category_ids = [] ∧
    (save_detection_json records cats [] pfx).images =
      records.map (fun r => (stripLead pfx r.image_path, r.detections)) := by
  have hkeep : ∀ l : List Detection, l.filter (keepDetection []) = l := by
    intro l
    simp [keepDetection]
  refine ⟨?_, hkeep dets, rfl, ?_⟩
  · simp [classify, List.any_map, Function.comp_def]
  · simp only [save_detection_json]
    exact List.map_congr_left fun r _ => by rw [hkeep r.detections]

/-- **C9.** The folder separation is invoked with the annotated-image output
directory (`output_path`) as its source root, not the original input
directory (`tgt_folder_path`): the separated files are the annotated copies
written by `save_detection_images`, while the JSON image paths had the
original input-directory path stripped. -/
theorem separation_reads_annotated_output :
    notebookCalls.sep_source_root = notebookCalls.images_output_path ∧
    notebookCalls.sep_source_root = output_path ∧
    notebookCalls.sep_source_root ≠ tgt_folder_path ∧
    notebookCalls.json_exclude_file_path = tgt_folder_path ∧
    notebookCalls.sep_json_path = json_file ∧
    notebookCalls.sep_destination_root = classified_path := by
  refine ⟨rfl, rfl, ?_, rfl, rfl, rfl⟩
  decide

/-- **C10.** The device is "cuda" iff `torch.cuda.is_available()` is true and
"cpu" otherwise; CUDA device 0 is selected exactly in the "cuda" case; and
the downstream call arguments of the pipeline do not depend on the chosen
device. -/
theorem device_selection_spec (b : Bool) :
    (selectDevice b = "cuda" ↔ b = true) ∧
    (selectDevice b = "cpu" ↔ b = false) ∧
    (cudaSetDevice0 b = true ↔ b = true) ∧
    (notebookPipeline b).2.2 = notebookCalls ∧
    (notebookPipeline true).2.2 = (notebookPipeline false).2.2 := by
  cases b <;> exact ⟨by decide, by decide, by decide, rfl, rfl⟩

end WildlifeClassifier
